import Mathlib

/-!
Shallow embedding of the `TableData` class (TypeScript, lodash/fp) from the
mock-table-data repository.  JavaScript values that can occur in rows and in
condition objects are modelled by `Value` (integers stand for JS numbers; the
claims under study only exercise integral numbers).  A condition node is
modelled as a raw JS object: an association list from keys to entry values,
where an entry value is either a plain `Value` or an array of nested nodes —
this keeps the source's dynamic `'conditions' in node` dispatch observable.
-/

namespace MockTable

/-- A JavaScript primitive value as stored in rows and condition entries. -/
inductive Value where
  | undef
  | null
  | str (s : String)
  | num (n : Int)
  | bool (b : Bool)
deriving DecidableEq, Repr

/-- A row: a JS object, modelled as an association list (keys unique in use). -/
def Row := List (String × Value)
deriving DecidableEq, Repr

mutual
/-- The value stored at one key of a condition object: either a primitive
or an array of nested condition nodes (the `conditions` entry of a branch). -/
inductive CVal where
  | v (val : Value)
  | nodes (l : List CNode)

/-- A raw condition object (`ConditionNode | ConditionItem` in the source). -/
inductive CNode where
  | obj (entries : List (String × CVal))
end

/-- First-occurrence key lookup on a JS object's entry list (`node[key]`). -/
def findEntry (k : String) : List (String × α) → Option α
  | [] => none
  | (k', v) :: rest => if k' == k then some v else findEntry k rest

theorem sizeOf_findEntry [SizeOf α] {k : String} {l : List (String × α)} {v : α}
    (h : findEntry k l = some v) : sizeOf v < sizeOf l := by
  induction l with
  | nil => simp [findEntry] at h
  | cons hd tl ih =>
    simp only [findEntry] at h
    split at h
    · cases h
      cases hd
      simp
      omega
    · have := ih h
      simp
      omega

/-- JS truthiness of a primitive value. -/
def truthy : Value → Bool
  | .undef => false
  | .null => false
  | .str s => s ≠ ""
  | .num n => n ≠ 0
  | .bool b => b

/-- `String(v)` for a primitive value. -/
def jsToString : Value → String
  | .undef => "undefined"
  | .null => "null"
  | .str s => s
  | .num n => toString n
  | .bool b => if b then "true" else "false"

/-- `(v ?? '').toString()`: nullish values collapse to the empty string. -/
def coalesceToString : Value → String
  | .undef => ""
  | .null => ""
  | v => jsToString v

def isWs (c : Char) : Bool :=
  c == ' ' || c == '\t' || c == '\n' || c == '\r' || c == '\x0b' || c == '\x0c'

/-- Whether `parseFloat(s)` yields a non-NaN result (the validator only asks
`!isNaN(parseFloat(v))`, so only success matters, not the parsed value). -/
def parseFloatOk (s : String) : Bool :=
  let t := (s.toList.dropWhile isWs)
  let t2 := match t with
    | '+' :: r => r
    | '-' :: r => r
    | r => r
  match t2 with
  | [] => false
  | c :: r =>
    c.isDigit || (c == '.' && (match r with | d :: _ => d.isDigit | [] => false))
      || List.isPrefixOf "Infinity".toList t2

/-- `parseInt(v, 10)`: stringify, trim, optional sign, leading decimal digits.
`none` stands for JS `NaN`. -/
def jsParseInt (v : Value) : Option Int :=
  let t := (jsToString v).toList.dropWhile isWs
  let (neg, t2) := match t with
    | '+' :: r => (false, r)
    | '-' :: r => (true, r)
    | r => (false, r)
  let digits := t2.takeWhile Char.isDigit
  if digits.isEmpty then none
  else
    let n : Int := Int.ofNat (digits.foldl (fun acc c => acc * 10 + (c.toNat - '0'.toNat)) 0)
    some (if neg then -n else n)

/-- JS `ToNumber` restricted to the `Value` model (`none` = NaN).  Fractional,
exponent and hex string literals lie outside the integral model. -/
def strToNumber (s : String) : Option Int :=
  let t := s.toList.dropWhile isWs |>.reverse.dropWhile isWs |>.reverse
  if t.isEmpty then some 0
  else
    let (neg, t2) := match t with
      | '+' :: r => (false, r)
      | '-' :: r => (true, r)
      | r => (false, r)
    if t2.isEmpty || t2.any (fun c => !c.isDigit) then none
    else
      let n : Int := Int.ofNat (t2.foldl (fun acc c => acc * 10 + (c.toNat - '0'.toNat)) 0)
      some (if neg then -n else n)

def jsToNumber : Value → Option Int
  | .num n => some n
  | .bool b => some (if b then 1 else 0)
  | .null => some 0
  | .undef => none
  | .str s => strToNumber s

/-- JS `a > b`: string/string comparison is lexicographic, otherwise both sides
go through `ToNumber` and any NaN makes the comparison false. -/
def jsGreater (a b : Value) : Bool :=
  match a, b with
  | .str x, .str y => decide (y < x)
  | _, _ =>
    match jsToNumber a, jsToNumber b with
    | some x, some y => decide (y < x)
    | _, _ => false

/-- `s.toUpperCase()` (ASCII case folding, as in the data under study). -/
def upper (s : String) : String := ⟨s.data.map Char.toUpper⟩

/-- Contiguous-sublist check on character lists. -/
def listContains (hay needle : List Char) : Bool :=
  List.isPrefixOf needle hay ||
    (match hay with
     | [] => false
     | _ :: t => listContains t needle)

/-- `includes(target, cmp)` (lodash/fp): does `cmp` contain `target`? -/
def strContains (cmp target : String) : Bool :=
  listContains cmp.toList target.toList

/-- Plain bracket access `row[k]`: lookup, `undefined` when the key is
missing (used by `insertRow`'s `row[this._primaryKey]` and by `orderBy`'s
criteria in this development). -/
def rowGet (row : Row) (k : String) : Value :=
  (findEntry k row).getD Value.undef

/-- `s.split(sep)` for a one-character separator, on character lists. -/
def splitOnChar (sep : Char) : List Char → List (List Char)
  | [] => [[]]
  | c :: rest =>
    if c == sep then [] :: splitOnChar sep rest
    else
      match splitOnChar sep rest with
      | [] => [[c]]
      | g :: gs => (c :: g) :: gs

/-- The canonical array-index reading of a property key, when it has one
(all digits, no leading zero except `"0"` itself). -/
def canonicalIndex (k : String) : Option Nat :=
  if k == "" then none
  else if !(k.data.all Char.isDigit) then none
  else if k != "0" && k.data.headD '0' == '0' then none
  else some (k.data.foldl (fun a c => a * 10 + (c.toNat - '0'.toNat)) 0)

/-- Own-property access on a string primitive: `"ab".length = 2`,
`"ab"["0"] = "a"`; other keys yield `undefined` (String.prototype members
are functions and lie outside the `Value` model). -/
def strProp (s k : String) : Value :=
  if k == "length" then Value.num s.data.length
  else
    match canonicalIndex k with
    | some i =>
      if i < s.data.length then Value.str (String.mk [s.data.getD i ' ']) else Value.undef
    | none => Value.undef

/-- lodash `baseGet`'s walk after the first step: a nullish object stops the
walk with `undefined`; strings expose their own properties; other primitives
have none. -/
def valueWalk (v : Value) : List String → Value
  | [] => v
  | k :: rest =>
    match v with
    | .str s => valueWalk (strProp s k) rest
    | _ => Value.undef

/-- lodash `get(key, row)` for string keys: a key without a dot — or a
deep-looking key that exists verbatim in the object (`isKey`'s
`value in Object(object)` escape) — is a direct lookup; otherwise the key is
split on `.` into a path walked through the row (bracket path syntax does not
occur in this repository and is outside the model). -/
def rowGetDeep (row : Row) (key : String) : Value :=
  if !(key.data.contains '.') || (findEntry key row).isSome then
    (findEntry key row).getD Value.undef
  else
    match splitOnChar '.' key.data with
    | [] => Value.undef
    | k :: rest =>
      valueWalk ((findEntry (String.mk k) row).getD Value.undef) (rest.map String.mk)

/-- The reserved modifier key names of a `ConditionItem`. -/
def modifierKeys : List String := ["type", "required", "like"]

/-- `Object.keys(item).find((k) => !['type','required','like'].includes(k))`. -/
def findNonModifierKey (entries : List (String × CVal)) : Option String :=
  (entries.map Prod.fst).find? (fun k => !(modifierKeys.contains k))

/-- JS truthiness of a condition-entry value (arrays are truthy). -/
def cvalTruthy : CVal → Bool
  | .v val => truthy val
  | .nodes _ => true

def cvalIsUndef : CVal → Bool
  | .v .undef => true
  | _ => false

def cvalIsNull : CVal → Bool
  | .v .null => true
  | _ => false

def cvalIsEmptyStr : CVal → Bool
  | .v (.str s) => s == ""
  | _ => false

/-- `String(x)` for an array of condition nodes: each element stringifies to
`[object Object]`, joined by commas. -/
def jsArrayToString (l : List CNode) : String :=
  String.intercalate "," (l.map fun _ => "[object Object]")

/-- Property-key coercion for `{string:…, number:…, boolean:…}[type]`. -/
def cvalKeyString : CVal → String
  | .v val => jsToString val
  | .nodes l => jsArrayToString l

/-- `typeof` of a condition-entry value, used in the mismatch message. -/
def cvalTypeof : CVal → String
  | .v .undef => "undefined"
  | .v .null => "object"
  | .v (.str _) => "string"
  | .v (.num _) => "number"
  | .v (.bool _) => "boolean"
  | .nodes _ => "object"

/-- `typeof v === 'number' || !isNaN(parseFloat(v))`. -/
def numberTypeCheck : CVal → Bool
  | .v (.num _) => true
  | .v val => parseFloatOk (jsToString val)
  | .nodes l => parseFloatOk (jsArrayToString l)

/-- `typeof v === 'boolean' || v === 'true' || v === 'false'`. -/
def booleanTypeCheck : CVal → Bool
  | .v (.bool _) => true
  | .v (.str s) => s == "true" || s == "false"
  | _ => false

/-- `typeof v === 'string'`. -/
def stringTypeCheck : CVal → Bool
  | .v (.str _) => true
  | _ => false

/-- `TableData.validateConditionItem`: shape, `required` and `type` checks;
errors model the thrown `Error`s. -/
def validateConditionItem (entries : List (String × CVal)) : Except String Unit :=
  match findNonModifierKey entries with
  | none => Except.error "Invalid condition item: no key provided"
  | some key =>
    if key == "" then Except.error "Invalid condition item: no key provided"
    else
    let value := (findEntry key entries).getD (.v .undef)
    let required := (findEntry "required" entries).getD (.v .undef)
    let typ := (findEntry "type" entries).getD (.v .undef)
    if cvalTruthy required && (cvalIsUndef value || cvalIsNull value || cvalIsEmptyStr value) then
      Except.error ("Missing required field: " ++ key)
    else if !cvalIsUndef value && !cvalIsNull value && cvalTruthy typ then
      let tkey := cvalKeyString typ
      if tkey == "string" then
        if stringTypeCheck value then Except.ok () else
          Except.error ("Type mismatch for key '" ++ key ++ "': expected string, got "
            ++ cvalTypeof value)
      else if tkey == "number" then
        if numberTypeCheck value then Except.ok () else
          Except.error ("Type mismatch for key '" ++ key ++ "': expected number, got "
            ++ cvalTypeof value)
      else if tkey == "boolean" then
        if booleanTypeCheck value then Except.ok () else
          Except.error ("Type mismatch for key '" ++ key ++ "': expected boolean, got "
            ++ cvalTypeof value)
      else Except.ok ()
    else Except.ok ()

/-- `node.like === true`. -/
def likeFlag (entries : List (String × CVal)) : Bool :=
  match findEntry "like" entries with
  | some (.v (.bool true)) => true
  | _ => false

/-- `eq(value, rowValue)` (lodash SameValueZero) for a non-string expected
value against the row's value; a nodes array is a fresh reference, never
equal to a row value. -/
def cvalEq (v : CVal) (rv : Value) : Bool :=
  match v with
  | .v x => x == rv
  | .nodes _ => false

/-- `const logic = node.logic ?? 'AND'; logic === 'AND'`. -/
def branchIsAnd (entries : List (String × CVal)) : Bool :=
  match findEntry "logic" entries with
  | none => true
  | some (.v .undef) => true
  | some (.v .null) => true
  | some (.v (.str s)) => s == "AND"
  | some _ => false

/-- The leaf arm of `evaluateCondition` (after the `'conditions' in node`
test failed): validate, then compare the single field entry against the row. -/
def evalLeaf (row : Row) (entries : List (String × CVal)) : Except String Bool :=
  match validateConditionItem entries with
  | Except.error e => Except.error e
  | Except.ok _ =>
    match findNonModifierKey entries with
    | none => Except.ok false
    | some key =>
      if key == "" then Except.ok false
      else
      let value := (findEntry key entries).getD (.v .undef)
      if cvalIsUndef value || cvalIsEmptyStr value then Except.ok true
      else
        let rowValue := rowGetDeep row key
        let like := likeFlag entries
        match value with
        | .v (.str s) =>
          let cmp := upper (coalesceToString rowValue)
          let target := upper s
          Except.ok (if like then strContains cmp target else cmp == target)
        | _ => Except.ok (cvalEq value rowValue)

mutual
/-- `TableData.evaluateCondition`: branch dispatch on the presence of a
`conditions` key (`'conditions' in node`), otherwise leaf evaluation.
The key search is performed by a structural scan over the entry list;
`evaluateCondition_dispatch` below recovers the `findEntry` reading. -/
def evaluateCondition (row : Row) (node : CNode) : Except String Bool :=
  match node with
  | .obj entries => evalScan row entries entries

/-- Scan for the first `conditions` entry of `orig`; on a hit, combine the
children under the node's logic; if the whole list has none, the node is a
leaf.  A `conditions` entry holding a non-array makes `node.conditions.map`
throw a `TypeError`. -/
def evalScan (row : Row) (orig rest : List (String × CVal)) : Except String Bool :=
  match rest with
  | [] => evalLeaf row orig
  | (k, v) :: rs =>
    if k == "conditions" then
      match v with
      | .nodes l =>
        match evalChildren row l with
        | Except.error e => Except.error e
        | Except.ok results =>
          Except.ok (if branchIsAnd orig then results.all id else results.any id)
      | .v _ => Except.error "TypeError: node.conditions.map is not a function"
    else evalScan row orig rs

/-- `node.conditions.map((child) => evaluateCondition(row, child))`: evaluate
every child left to right, the first thrown error aborts. -/
def evalChildren (row : Row) (l : List CNode) : Except String (List Bool) :=
  match l with
  | [] => Except.ok []
  | c :: cs =>
    match evaluateCondition row c with
    | Except.error e => Except.error e
    | Except.ok b =>
      match evalChildren row cs with
      | Except.error e => Except.error e
      | Except.ok bs => Except.ok (b :: bs)
end

/-! ### Sorter (`sortedList`, lodash `orderBy`) -/

/-- One `"field:direction"` token: `const [key, order] = s.split(':')`;
the direction is descending exactly when `order === 'desc'`. -/
def parseSortToken (s : String) : String × Bool :=
  let parts := (splitOnChar ':' s.data).map (fun cs => String.mk cs)
  (parts.headD "", parts.get? 1 == some "desc")

def parseSorts (sorts : List String) : List (String × Bool) :=
  sorts.map parseSortToken

/-- lodash `compareAscending` restricted to the `Value` model (which has no
NaN and no symbols): normal values compare by JS `>`, `null` sorts after
defined values, `undefined` sorts last. -/
def compareAscending (a b : Value) : Int :=
  if a = b then 0
  else if jsGreater a b || (a = .null && !(b = .undef)) || a = .undef then 1
  else if jsGreater b a || (b = .null && !(a = .undef)) || b = .undef then -1
  else 0

/-- lodash `compareMultiple`: successive tie-breakers over the key list,
each result sign-flipped when its direction is descending. -/
def compareMultiple (ks : List (String × Bool)) (a b : Row) : Int :=
  match ks with
  | [] => 0
  | (k, desc) :: rest =>
    let r := compareAscending (rowGet a k) (rowGet b k)
    if r = 0 then compareMultiple rest a b
    else if desc then -r else r

/-- The comparator as a `Bool` relation for the stable sort. -/
def sortLe (ks : List (String × Bool)) (a b : Row) : Bool :=
  decide (compareMultiple ks a b ≤ 0)

/-- The comparator as a decidable `Prop` relation. -/
def sortRel (ks : List (String × Bool)) : Row → Row → Prop :=
  fun a b => sortLe ks a b = true

instance sortRelDecidable (ks : List (String × Bool)) : DecidableRel (sortRel ks) :=
  fun a b => inferInstanceAs (Decidable (_ = true))

/-- `TableData.sortedList`: parse the tokens, then stable-sort by the
multi-key comparator (lodash `orderBy` performs a stable sort; it is
modelled by stable insertion sort). -/
def sortedList (rows : List Row) (sorts : List String) : List Row :=
  List.insertionSort (sortRel (parseSorts sorts)) rows

/-! ### Filter pipeline -/

/-- The `ConditionNode | ConditionItem[]` argument union. -/
inductive CondArg where
  | node (n : CNode)
  | list (l : List CNode)

/-- `Array.isArray(conditions) ? { logic: 'AND', conditions } : conditions`. -/
def treeOf : CondArg → CNode
  | .node n => n
  | .list l => .obj [("logic", .v (.str "AND")), ("conditions", .nodes l)]

/-- lodash `filter` with a predicate that can throw: left-to-right, the
first thrown error aborts the whole call. -/
def filterE (p : α → Except String Bool) : List α → Except String (List α)
  | [] => Except.ok []
  | x :: xs =>
    match p x with
    | Except.error e => Except.error e
    | Except.ok b =>
      match filterE p xs with
      | Except.error e => Except.error e
      | Except.ok rest => Except.ok (if b then x :: rest else rest)

/-- `TableData.filteredList` over an explicit row list. -/
def filteredList (rows : List Row) (conditions : CondArg) : Except String (List Row) :=
  filterE (fun row => evaluateCondition row (treeOf conditions)) rows

/-! ### Table, pagination and `getRows` -/

/-- The table state and options (`_dataSource`, `_primaryKey`, `dataProcessing`). -/
structure Table where
  rows : List Row
  primaryKey : Option String := none
  dataProcessing : Option (List Row → List Row) := none

/-- `Array.prototype.slice(start, end)`.  `start`/`end` are JS numbers with
`none` standing for NaN (which `ToIntegerOrInfinity` sends to 0); the outer
`Option` of `endArg` distinguishes an `undefined` end (slice to the end). -/
def jsSlice (l : List Row) (start : Option Int) (endArg : Option (Option Int)) : List Row :=
  let len : Int := l.length
  let s0 := start.getD 0
  let s := if s0 < 0 then max (len + s0) 0 else min s0 len
  let e := match endArg with
    | none => len
    | some x =>
      let e0 := x.getD 0
      if e0 < 0 then max (len + e0) 0 else min e0 len
  (l.drop s.toNat).take (e - s).toNat

/-- Result of `getRows`: a bare page, or the meta envelope. -/
inductive GetRowsResult where
  | plain (rows : List Row)
  | meta (result : List Row) (totalCount currentCount : Nat) (limit offset : Option Int)

/-- `const nOffset = offset ? parseInt(offset, 10) : 0`. -/
def pageStart (offset : Value) : Option Int :=
  if truthy offset then jsParseInt offset else some 0

/-- The second `slice` argument, `limit ? nOffset + nLimit : undefined`
(NaN propagates through the addition). -/
def pageEnd (limit offset : Value) : Option (Option Int) :=
  if truthy limit then
    some (match pageStart offset, jsParseInt limit with
          | some a, some b => some (a + b)
          | _, _ => none)
  else none

/-- `if (sorts) result = this.sortedList(result, sorts)`. -/
def sortIfGiven (rows : List Row) : Option (List String) → List Row
  | some ss => sortedList rows ss
  | none => rows

/-- `if (conditions) result = this.filteredList(conditions)`. -/
def filterOpt (rows : List Row) : Option CondArg → Except String (List Row)
  | some c => filteredList rows c
  | none => Except.ok rows

/-- `if (this.dataProcessing) result = this.dataProcessing(result)`. -/
def applyProcessing (t : Table) (l : List Row) : List Row :=
  match t.dataProcessing with
  | some f => f l
  | none => l

/-- `TableData.getRows`: parse limit/offset, short-circuit on an empty table
or `nLimit === 0`, filter, record `totalCount`, sort, slice, and either
return the page or post-process it and wrap it with metadata. -/
def getRows (t : Table) (limit offset : Value) (conditions : Option CondArg)
    (sorts : Option (List String)) (meta : Bool) : Except String GetRowsResult :=
  let nLimit := jsParseInt limit
  let nOffset := pageStart offset
  if t.rows.isEmpty || nLimit == some 0 then
    Except.ok (if meta then .meta [] 0 0 nLimit nOffset else .plain [])
  else
    match filterOpt t.rows conditions with
    | Except.error e => Except.error e
    | Except.ok result0 =>
      let result1 := sortIfGiven result0 sorts
      let page := jsSlice result1 nOffset (pageEnd limit offset)
      if meta then
        let page2 := applyProcessing t page
        Except.ok (.meta page2 result0.length page2.length nLimit nOffset)
      else Except.ok (.plain page)

/-! ### Mutation operations

The JS methods mutate `this._dataSource` in place after their checks; they
are modelled as state transformers returning the row list after the call
together with the returned value or thrown error, with every `throw`
happening at the point in the statement sequence where the source throws. -/

/-- `TableData.insertRow`: duplicate-primary-key guard (strict `===` on the
raw field values), then append. -/
def insertRowS (t : Table) (item : Row) : List Row × Except String Row :=
  let dup := match t.primaryKey with
    | none => false
    | some pk => pk != "" && t.rows.any (fun row => rowGet row pk == rowGet item pk)
  if dup then (t.rows, Except.error "primary key duplicate error")
  else (t.rows ++ [item], Except.ok item)

/-- `Array.prototype.findIndex` with a throwing predicate: first match wins;
`none` models `-1`. -/
def findIndexE (p : Row → Except String Bool) : List Row → Except String (Option Nat)
  | [] => Except.ok none
  | r :: rs =>
    match p r with
    | Except.error e => Except.error e
    | Except.ok true => Except.ok (some 0)
    | Except.ok false =>
      match findIndexE p rs with
      | Except.error e => Except.error e
      | Except.ok none => Except.ok none
      | Except.ok (some i) => Except.ok (some (i + 1))

/-- `TableData.updateRow`: find the first matching index, throw
`not found condition` when there is none, otherwise splice-replace
(wholesale) or splice-remove. -/
def updateRowS (rows : List Row) (conditions : CondArg) (newItem : Option Row) :
    List Row × Except String Bool :=
  match findIndexE (fun row => evaluateCondition row (treeOf conditions)) rows with
  | Except.error e => (rows, Except.error e)
  | Except.ok none => (rows, Except.error "not found condition")
  | Except.ok (some i) =>
    match newItem with
    | some it => (rows.set i it, Except.ok true)
    | none => (rows.eraseIdx i, Except.ok true)

/-- `TableData.deleteRow`: `updateRow(conditions)` with no replacement. -/
def deleteRowS (rows : List Row) (conditions : CondArg) : List Row × Except String Bool :=
  updateRowS rows conditions none

deriving instance DecidableEq for Except
deriving instance DecidableEq for GetRowsResult

/-! ## Helper lemmas -/

theorem evalScan_dispatch (row : Row) (orig : List (String × CVal)) :
    ∀ rest, evalScan row orig rest =
      match findEntry "conditions" rest with
      | some (.nodes l) =>
        match evalChildren row l with
        | Except.error e => Except.error e
        | Except.ok results =>
          Except.ok (if branchIsAnd orig then results.all id else results.any id)
      | some (.v _) => Except.error "TypeError: node.conditions.map is not a function"
      | none => evalLeaf row orig := by
  intro rest
  induction rest with
  | nil => simp [evalScan, findEntry]
  | cons hd tl ih =>
    obtain ⟨k, v⟩ := hd
    by_cases hk : k == "conditions"
    · rw [evalScan.eq_def, findEntry]
      simp only [hk, if_true]
      cases v <;> rfl
    · rw [evalScan.eq_def, findEntry]
      simp only [hk, if_false]
      exact ih

/-- The evaluator's branch/leaf dispatch, stated with first-occurrence key
lookup exactly as the source's `'conditions' in node` / `node.conditions`. -/
theorem evaluateCondition_dispatch (row : Row) (entries : List (String × CVal)) :
    evaluateCondition row (.obj entries) =
      match findEntry "conditions" entries with
      | some (.nodes l) =>
        match evalChildren row l with
        | Except.error e => Except.error e
        | Except.ok results =>
          Except.ok (if branchIsAnd entries then results.all id else results.any id)
      | some (.v _) => Except.error "TypeError: node.conditions.map is not a function"
      | none => evalLeaf row entries := by
  rw [evaluateCondition]
  exact evalScan_dispatch row entries entries

theorem findEntry_eq_none {k : String} :
    ∀ {l : List (String × α)}, findEntry k l = none ↔ ∀ p ∈ l, p.1 ≠ k := by
  intro l
  induction l with
  | nil => simp [findEntry]
  | cons hd tl ih =>
    obtain ⟨k', v⟩ := hd
    simp only [findEntry]
    by_cases hk : k' = k
    · have hb : (k' == k) = true := beq_iff_eq.mpr hk
      simp only [hb, if_true]
      constructor
      · intro h; cases h
      · intro h; exact absurd hk (h (k', v) (List.mem_cons_self _ _))
    · have hb : (k' == k) = false := beq_eq_false_iff_ne.mpr hk
      simp only [hb, Bool.false_eq_true, if_false]
      rw [ih]
      constructor
      · intro h p hp
        rcases List.mem_cons.mp hp with h1 | h2
        · rw [h1]; exact hk
        · exact h p h2
      · intro h p hp
        exact h p (List.mem_cons_of_mem _ hp)

theorem findNonModifierKey_mem {entries : List (String × CVal)} {key : String}
    (h : findNonModifierKey entries = some key) : key ∈ entries.map Prod.fst := by
  exact List.mem_of_find?_eq_some h

/-- A leaf that passes validation has a non-empty field key (`if (!key)`
also throws on the falsy empty string). -/
theorem validate_ok_key_ne {entries : List (String × CVal)} {key : String}
    (hval : validateConditionItem entries = Except.ok ())
    (hk : findNonModifierKey entries = some key) : (key == "") = false := by
  cases hke : key == "" with
  | false => rfl
  | true =>
    exfalso
    unfold validateConditionItem at hval
    rw [hk] at hval
    simp [hke] at hval

/-- A predicate that accepts every element filters to the whole list. -/
theorem filterE_all_true {p : α → Except String Bool} :
    ∀ {l : List α}, (∀ x ∈ l, p x = Except.ok true) → filterE p l = Except.ok l := by
  intro l
  induction l with
  | nil => intro _; rfl
  | cons x xs ih =>
    intro h
    have hx := h x (List.mem_cons_self x xs)
    have hxs := ih (fun y hy => h y (List.mem_cons_of_mem x hy))
    simp [filterE, hx, hxs]

/-- `findIndexE` success characterization: the found index is the first one
whose row satisfies the predicate. -/
theorem findIndexE_some {p : Row → Except String Bool} :
    ∀ {rows : List Row} {i : Nat}, findIndexE p rows = Except.ok (some i) →
      i < rows.length ∧ p (rows.getD i []) = Except.ok true ∧
      ∀ j, j < i → p (rows.getD j []) = Except.ok false := by
  intro rows
  induction rows with
  | nil => intro i h; simp [findIndexE] at h
  | cons r rs ih =>
    intro i h
    simp only [findIndexE] at h
    cases hp : p r with
    | error e => rw [hp] at h; cases h
    | ok b =>
      rw [hp] at h
      cases b with
      | true =>
        have hi : i = 0 := by
          simpa using h.symm
        subst hi
        refine ⟨by simp, by simpa using hp, ?_⟩
        intro j hj
        omega
      | false =>
        cases hrec : findIndexE p rs with
        | error e => rw [hrec] at h; cases h
        | ok oi =>
          rw [hrec] at h
          cases oi with
          | none => cases h
          | some i' =>
            have hi : i = i' + 1 := by
              simpa using h.symm
            subst hi
            obtain ⟨h1, h2, h3⟩ := ih hrec
            refine ⟨by simpa using h1, by simpa using h2, ?_⟩
            intro j hj
            cases j with
            | zero => simpa using hp
            | succ j' =>
              have := h3 j' (by omega)
              simpa using this

/-- If no row satisfies the predicate, `findIndexE` yields `-1` (`none`). -/
theorem findIndexE_none_of_all_false {p : Row → Except String Bool} :
    ∀ {rows : List Row}, (∀ r ∈ rows, p r = Except.ok false) →
      findIndexE p rows = Except.ok none := by
  intro rows
  induction rows with
  | nil => intro _; rfl
  | cons r rs ih =>
    intro h
    have hr := h r (List.mem_cons_self _ _)
    have hrs := ih (fun x hx => h x (List.mem_cons_of_mem _ hx))
    simp [findIndexE, hr, hrs]

/-- An `undefined` end argument slices from a non-negative start to the end. -/
theorem jsSlice_none_eq_drop {s : Option Int} (h : 0 ≤ s.getD 0) :
    ∀ l : List Row, jsSlice l s none = l.drop (s.getD 0).toNat := by
  intro l
  unfold jsSlice
  set s0 := s.getD 0 with hs0
  have hnlt : ¬ s0 < 0 := by omega
  simp only [hnlt, if_false]
  by_cases hle : s0 ≤ (l.length : Int)
  · have hmin : min s0 (l.length : Int) = s0 := min_eq_left hle
    rw [hmin]
    apply List.take_of_length_le
    simp [List.length_drop]
    omega
  · have hmin : min s0 (l.length : Int) = (l.length : Int) := min_eq_right (by omega)
    rw [hmin]
    have h1 : ((l.length : Int)).toNat = l.length := by omega
    rw [h1, List.drop_length, List.drop_eq_nil_of_le (by omega)]
    simp

/-- A NaN end argument clamps to 0, so the slice is empty. -/
theorem jsSlice_nan_end (l : List Row) (s : Option Int) : jsSlice l s (some none) = [] := by
  unfold jsSlice
  simp only [Option.getD_none]
  have h0 : ¬ (0 : Int) < 0 := by omega
  simp only [h0, if_false]
  have hmin : min (0 : Int) (l.length : Int) = 0 := min_eq_left (by positivity)
  rw [hmin]
  have : ∀ s' : Int, 0 ≤ s' → (0 - s').toNat = 0 := by intro s' h; omega
  split_ifs with hneg
  · rw [this _ (le_max_right _ _)]
    simp
  · rw [this _ (le_min_iff.mpr ⟨by omega, by positivity⟩)]
    simp

/-- A start at or beyond the list length slices to the empty page. -/
theorem jsSlice_start_beyond {l : List Row} {o : Int} (e : Option (Option Int))
    (h : (l.length : Int) ≤ o) : jsSlice l (some o) e = [] := by
  unfold jsSlice
  simp only [Option.getD_some]
  have hnlt : ¬ o < 0 := by omega
  have hmin : min o (l.length : Int) = (l.length : Int) := min_eq_right h
  simp only [hnlt, if_false, hmin]
  have h1 : ((l.length : Int)).toNat = l.length := by omega
  rw [h1, List.drop_length]
  simp

/-! ## Claims -/

/-- C1: a branch node with zero children evaluates to `true` under AND
(also when `logic` is omitted) and to `false` under OR, and `filteredList`
on an empty leaf list returns every row in original order. -/
theorem c1_empty_branch_vacuous (row : Row) (entries : List (String × CVal))
    (rows : List Row) (h : findEntry "conditions" entries = some (.nodes [])) :
    ((findEntry "logic" entries = none ∨ findEntry "logic" entries = some (.v (.str "AND"))) →
      evaluateCondition row (.obj entries) = Except.ok true) ∧
    (findEntry "logic" entries = some (.v (.str "OR")) →
      evaluateCondition row (.obj entries) = Except.ok false) ∧
    filteredList rows (.list []) = Except.ok rows := by
  refine ⟨?_, ?_, ?_⟩
  · intro hl
    rw [evaluateCondition_dispatch, h]
    have : branchIsAnd entries = true := by
      rcases hl with hl | hl <;> simp [branchIsAnd, hl]
    simp [evalChildren, this]
  · intro hl
    rw [evaluateCondition_dispatch, h]
    simp [evalChildren, branchIsAnd, hl]
  · exact filterE_all_true (fun x _ => rfl)

theorem c1_empty_branch_vacuous_witness :
    evaluateCondition [] (.obj [("conditions", CVal.nodes [])]) = Except.ok true ∧
    evaluateCondition [] (.obj [("logic", CVal.v (.str "OR")), ("conditions", CVal.nodes [])]) =
      Except.ok false ∧
    filteredList [[("a", Value.num 1)]] (.list []) = Except.ok [[("a", Value.num 1)]] :=
  ⟨(c1_empty_branch_vacuous [] [("conditions", CVal.nodes [])] [] rfl).1 (Or.inl rfl),
   (c1_empty_branch_vacuous [] [("logic", CVal.v (.str "OR")), ("conditions", CVal.nodes [])]
      [] rfl).2.1 rfl,
   (c1_empty_branch_vacuous [] [("conditions", CVal.nodes [])] [[("a", Value.num 1)]] rfl).2.2⟩

/-- C7: a leaf predicate that passes validation and whose expected value is
`undefined` or the empty string evaluates to `true` for every row. -/
theorem c7_absent_predicate_passes (row : Row) (entries : List (String × CVal)) (key : String)
    (hb : findEntry "conditions" entries = none)
    (hval : validateConditionItem entries = Except.ok ())
    (hk : findNonModifierKey entries = some key)
    (hv : findEntry key entries = some (CVal.v .undef) ∨
          findEntry key entries = some (CVal.v (.str ""))) :
    evaluateCondition row (.obj entries) = Except.ok true := by
  have hke := validate_ok_key_ne hval hk
  rw [evaluateCondition_dispatch, hb]
  unfold evalLeaf
  rw [hval]
  simp only [hk, hke]
  rcases hv with hv | hv <;> simp [hv, cvalIsUndef, cvalIsEmptyStr]

theorem c7_absent_predicate_passes_witness :
    evaluateCondition [("name", Value.str "User1")] (.obj [("name", CVal.v .undef)]) =
      Except.ok true ∧
    evaluateCondition [("name", Value.str "User1")]
      (.obj [("name", CVal.v (.str "")), ("type", CVal.v (.str "string"))]) = Except.ok true :=
  ⟨c7_absent_predicate_passes _ _ "name" rfl rfl rfl (Or.inl rfl),
   c7_absent_predicate_passes _ _ "name" rfl rfl rfl (Or.inr rfl)⟩

/-- C9 (amended): a condition object containing a key literally named
`conditions` is always treated as a branch (AND/OR combination over that
entry's elements, never as a leaf), and a leaf's field key is never the
literal string `conditions`; however — see the counterexample — lodash `get`
interprets dotted leaf keys as paths, so a leaf such as
`{"conditions.length": 2}` does read through the row's `conditions` field. -/
theorem c9_conditions_entry_is_branch (row : Row) (entries : List (String × CVal))
    (l : List CNode) :
    (findEntry "conditions" entries = some (.nodes l) →
      evaluateCondition row (.obj entries) =
        (match evalChildren row l with
         | Except.error e => Except.error e
         | Except.ok results =>
           Except.ok (if branchIsAnd entries then results.all id else results.any id))) ∧
    (findEntry "conditions" entries = none →
      findNonModifierKey entries ≠ some "conditions") := by
  constructor
  · intro h
    rw [evaluateCondition_dispatch, h]
  · intro hnone hk
    have hmem := findNonModifierKey_mem hk
    rw [findEntry_eq_none] at hnone
    obtain ⟨p, hp, hfst⟩ := List.mem_map.mp hmem
    exact hnone p hp hfst

theorem c9_conditions_entry_is_branch_witness :
    evaluateCondition [("conditions", Value.str "x")]
        (.obj [("conditions", CVal.nodes [])]) =
      (match evalChildren [("conditions", Value.str "x")] [] with
       | Except.error e => Except.error e
       | Except.ok results =>
         Except.ok (if branchIsAnd [("conditions", CVal.nodes [])] then
            results.all id else results.any id)) ∧
    findNonModifierKey [("a", CVal.v (Value.num 1))] ≠ some "conditions" :=
  ⟨(c9_conditions_entry_is_branch [("conditions", Value.str "x")]
      [("conditions", CVal.nodes [])] []).1 rfl,
   (c9_conditions_entry_is_branch [] [("a", CVal.v (Value.num 1))] []).2 rfl⟩

/-- C9 counterexample to the claim as stated: lodash `get` treats a dotted
leaf key as a path, so the leaf `{"conditions.length": 2}` reads through the
row's `conditions` field — two rows differing only in that field evaluate
differently, i.e. a row field literally named `conditions` CAN be tested by
a leaf. -/
theorem c9_dotted_path_counterexample :
    evaluateCondition [("conditions", Value.str "ab")]
        (.obj [("conditions.length", CVal.v (Value.num 2))]) = Except.ok true ∧
    evaluateCondition [("conditions", Value.str "abc")]
        (.obj [("conditions.length", CVal.v (Value.num 2))]) = Except.ok false := by
  decide

/-- C4 (amended): for a leaf that passes validation whose expected value is a
non-empty string, the leaf passes iff the row value's uppercase string form
contains (under `like`) or equals (otherwise) the expected value's uppercase
form, a missing row value being compared as the empty string; an empty-string
expected value short-circuits to a pass instead. -/
theorem c4_string_leaf_comparison (row : Row) (entries : List (String × CVal))
    (key : String) (s : String)
    (hb : findEntry "conditions" entries = none)
    (hval : validateConditionItem entries = Except.ok ())
    (hk : findNonModifierKey entries = some key)
    (hv : findEntry key entries = some (CVal.v (.str s)))
    (hs : s ≠ "") :
    evaluateCondition row (.obj entries) =
      Except.ok (if likeFlag entries then
          strContains (upper (coalesceToString (rowGetDeep row key))) (upper s)
        else upper (coalesceToString (rowGetDeep row key)) == upper s) ∧
    (rowGetDeep row key = Value.undef → coalesceToString (rowGetDeep row key) = "") := by
  constructor
  · have hke := validate_ok_key_ne hval hk
    rw [evaluateCondition_dispatch, hb]
    unfold evalLeaf
    rw [hval]
    have hse : (s == "") = false := beq_eq_false_iff_ne.mpr hs
    simp [hk, hke, hv, cvalIsUndef, cvalIsEmptyStr, hse]
  · intro h
    simp [h, coalesceToString]

theorem c4_string_leaf_comparison_witness :
    evaluateCondition [("name", Value.str "User20")]
        (.obj [("name", CVal.v (.str "user2")), ("like", CVal.v (.bool true))]) =
      Except.ok (if likeFlag [("name", CVal.v (.str "user2")), ("like", CVal.v (.bool true))] then
          strContains (upper (coalesceToString (rowGetDeep [("name", Value.str "User20")] "name")))
            (upper "user2")
        else upper (coalesceToString (rowGetDeep [("name", Value.str "User20")] "name")) ==
          upper "user2") ∧
    (rowGetDeep [("id", Value.num 3)] "name" = Value.undef →
      coalesceToString (rowGetDeep [("id", Value.num 3)] "name") = "") :=
  ⟨(c4_string_leaf_comparison [("name", Value.str "User20")]
      [("name", CVal.v (.str "user2")), ("like", CVal.v (.bool true))] "name" "user2"
      rfl rfl rfl rfl (by decide)).1,
   (c4_string_leaf_comparison [("id", Value.num 3)]
      [("name", CVal.v (.str "user2")), ("like", CVal.v (.bool true))] "name" "user2"
      rfl rfl rfl rfl (by decide)).2⟩

/-- C4 counterexample to the claim as stated: the empty string is a string
expected value, yet the leaf passes for a row whose uppercase field value is
not equal to (the uppercase of) the empty string. -/
theorem c4_empty_string_counterexample :
    evaluateCondition [("a", Value.str "X")] (.obj [("a", CVal.v (Value.str ""))]) =
      Except.ok true ∧
    (upper (coalesceToString (rowGet [("a", Value.str "X")] "a")) == upper "") = false := by
  decide

/-- C5: a mutating operation that raises a failure (duplicate key on insert,
condition-not-found on update/delete) leaves the row collection exactly as it
was — the state component of the modelled mutators is unchanged whenever the
result is an error. -/
theorem c5_failed_mutation_keeps_rows (t : Table) (item : Row) (rows : List Row)
    (conds : CondArg) (ni : Option Row) :
    (∀ e, (insertRowS t item).2 = Except.error e → (insertRowS t item).1 = t.rows) ∧
    (∀ e, (updateRowS rows conds ni).2 = Except.error e → (updateRowS rows conds ni).1 = rows) ∧
    (∀ e, (deleteRowS rows conds).2 = Except.error e → (deleteRowS rows conds).1 = rows) := by
  refine ⟨?_, ?_, ?_⟩
  · intro e h
    simp only [insertRowS] at h ⊢
    split_ifs at h ⊢ <;> simp_all
  · intro e h
    simp only [updateRowS] at h ⊢
    cases hf : findIndexE (fun r => evaluateCondition r (treeOf conds)) rows with
    | error e' => simp [hf]
    | ok oi =>
      cases oi with
      | none => simp [hf]
      | some i =>
        rw [hf] at h
        cases ni <;> simp at h
  · intro e h
    simp only [deleteRowS, updateRowS] at h ⊢
    cases hf : findIndexE (fun r => evaluateCondition r (treeOf conds)) rows with
    | error e' => simp [hf]
    | ok oi =>
      cases oi with
      | none => simp [hf]
      | some i =>
        rw [hf] at h
        simp at h

theorem c5_failed_mutation_keeps_rows_witness :
    (insertRowS { rows := [[("id", Value.num 1)]], primaryKey := some "id" }
        [("id", Value.num 1)]).1 = [[("id", Value.num 1)]] ∧
    (updateRowS [[("id", Value.num 1)]] (.list [.obj [("id", CVal.v (Value.num 2))]])
        (some [("id", Value.num 7)])).1 = [[("id", Value.num 1)]] ∧
    (deleteRowS [[("id", Value.num 1)]] (.list [.obj [("id", CVal.v (Value.num 2))]])).1 =
      [[("id", Value.num 1)]] :=
  ⟨(c5_failed_mutation_keeps_rows { rows := [[("id", Value.num 1)]], primaryKey := some "id" }
      [("id", Value.num 1)] [] (.list []) none).1 "primary key duplicate error" (by decide),
   (c5_failed_mutation_keeps_rows { rows := [] } [] [[("id", Value.num 1)]]
      (.list [.obj [("id", CVal.v (Value.num 2))]]) (some [("id", Value.num 7)])).2.1
      "not found condition" (by decide),
   (c5_failed_mutation_keeps_rows { rows := [] } [] [[("id", Value.num 1)]]
      (.list [.obj [("id", CVal.v (Value.num 2))]]) none).2.2
      "not found condition" (by decide)⟩

/-- C8: `updateRow` targets the first index in table order whose row satisfies
the tree-ified conditions; a given replacement replaces that row wholesale, no
replacement removes it, the call returns `true`; when no row matches it fails
with `not found condition` leaving the rows unchanged; `deleteRow` is
`updateRow` without a replacement. -/
theorem c8_updateRow_first_match (rows : List Row) (conds : CondArg) (it : Row)
    (ni : Option Row) :
    (∀ i, findIndexE (fun r => evaluateCondition r (treeOf conds)) rows = Except.ok (some i) →
      i < rows.length ∧
      evaluateCondition (rows.getD i []) (treeOf conds) = Except.ok true ∧
      (∀ j, j < i → evaluateCondition (rows.getD j []) (treeOf conds) = Except.ok false) ∧
      updateRowS rows conds (some it) = (rows.set i it, Except.ok true) ∧
      updateRowS rows conds none = (rows.eraseIdx i, Except.ok true)) ∧
    ((∀ r ∈ rows, evaluateCondition r (treeOf conds) = Except.ok false) →
      updateRowS rows conds ni = (rows, Except.error "not found condition")) ∧
    deleteRowS rows conds = updateRowS rows conds none := by
  refine ⟨?_, ?_, rfl⟩
  · intro i h
    obtain ⟨h1, h2, h3⟩ := findIndexE_some h
    exact ⟨h1, h2, h3, by simp [updateRowS, h], by simp [updateRowS, h]⟩
  · intro hall
    have hn := findIndexE_none_of_all_false hall
    simp [updateRowS, hn]

theorem c8_updateRow_first_match_witness :
    updateRowS [[("id", Value.num 1)], [("id", Value.num 2)], [("id", Value.num 2)]]
        (.list [.obj [("id", CVal.v (Value.num 2))]]) (some [("id", Value.num 9)]) =
      ([[("id", Value.num 1)], [("id", Value.num 9)], [("id", Value.num 2)]], Except.ok true) ∧
    updateRowS [[("id", Value.num 1)], [("id", Value.num 2)], [("id", Value.num 2)]]
        (.list [.obj [("id", CVal.v (Value.num 2))]]) none =
      ([[("id", Value.num 1)], [("id", Value.num 2)]], Except.ok true) ∧
    updateRowS [[("id", Value.num 1)]] (.list [.obj [("id", CVal.v (Value.num 5))]]) none =
      ([[("id", Value.num 1)]], Except.error "not found condition") :=
  ⟨((c8_updateRow_first_match
      [[("id", Value.num 1)], [("id", Value.num 2)], [("id", Value.num 2)]]
      (.list [.obj [("id", CVal.v (Value.num 2))]]) [("id", Value.num 9)] none).1 1
      (by decide)).2.2.2.1,
   ((c8_updateRow_first_match
      [[("id", Value.num 1)], [("id", Value.num 2)], [("id", Value.num 2)]]
      (.list [.obj [("id", CVal.v (Value.num 2))]]) [("id", Value.num 9)] none).1 1
      (by decide)).2.2.2.2,
   (c8_updateRow_first_match [[("id", Value.num 1)]]
      (.list [.obj [("id", CVal.v (Value.num 5))]]) [] none).2.1 (by decide)⟩

/-- C10: insert's duplicate detection is strict `===` on the raw primary-key
values (no type coercion, no case folding): a numeric `5` does not collide
with the string `"5"`, `"ABC"` does not collide with `"abc"`, even though the
filter evaluator matches `"abc"` against `"ABC"` case-insensitively. -/
theorem c10_insert_strict_equality (t : Table) (pk : String) (item : Row)
    (hpk : t.primaryKey = some pk) (hne : pk ≠ "") :
    insertRowS t item =
      (if t.rows.any (fun row => rowGet row pk == rowGet item pk) then
        (t.rows, Except.error "primary key duplicate error")
      else (t.rows ++ [item], Except.ok item)) ∧
    insertRowS { rows := [[("id", Value.num 5)]], primaryKey := some "id" }
        [("id", Value.str "5")] =
      ([[("id", Value.num 5)], [("id", Value.str "5")]], Except.ok [("id", Value.str "5")]) ∧
    insertRowS { rows := [[("id", Value.str "ABC")]], primaryKey := some "id" }
        [("id", Value.str "abc")] =
      ([[("id", Value.str "ABC")], [("id", Value.str "abc")]],
        Except.ok [("id", Value.str "abc")]) ∧
    evaluateCondition [("id", Value.str "ABC")] (.obj [("id", CVal.v (Value.str "abc"))]) =
      Except.ok true := by
  refine ⟨?_, by decide, by decide, by decide⟩
  simp only [insertRowS, hpk]
  have hb : (pk != "") = true := by simpa using hne
  simp [hb]

theorem c10_insert_strict_equality_witness :
    insertRowS { rows := [[("id", Value.num 5)]], primaryKey := some "id" }
        [("id", Value.str "5")] =
      (if ([[("id", Value.num 5)]] : List Row).any
          (fun row => rowGet row "id" == rowGet [("id", Value.str "5")] "id") then
        ([[("id", Value.num 5)]], Except.error "primary key duplicate error")
      else ([[("id", Value.num 5)], [("id", Value.str "5")]],
        Except.ok [("id", Value.str "5")])) :=
  (c10_insert_strict_equality { rows := [[("id", Value.num 5)]], primaryKey := some "id" }
    "id" [("id", Value.str "5")] rfl (by decide)).1

/-- C2 (amended): with `meta=true`, provided the table is non-empty and the
parsed limit is not 0, `totalCount` is the post-filter pre-pagination row
count and `currentCount` is the returned page's length after the optional
post-process transform; in the short-circuit case (empty table or parsed
limit 0) the envelope is empty with both counts 0, regardless of how many
rows satisfy the conditions. -/
theorem c2_meta_counts (t : Table) (limit offset : Value) (c : CondArg)
    (sorts : Option (List String)) (fr : List Row) :
    (t.rows ≠ [] → jsParseInt limit ≠ some 0 → filteredList t.rows c = Except.ok fr →
      getRows t limit offset (some c) sorts true =
        Except.ok (.meta
          (applyProcessing t
            (jsSlice (sortIfGiven fr sorts) (pageStart offset) (pageEnd limit offset)))
          fr.length
          (applyProcessing t
            (jsSlice (sortIfGiven fr sorts) (pageStart offset) (pageEnd limit offset))).length
          (jsParseInt limit) (pageStart offset))) ∧
    ((t.rows = [] ∨ jsParseInt limit = some 0) →
      getRows t limit offset (some c) sorts true =
        Except.ok (.meta [] 0 0 (jsParseInt limit) (pageStart offset))) := by
  constructor
  · intro hne hlim hf
    have hempty : t.rows.isEmpty = false := by
      cases hrows : t.rows with
      | nil => exact absurd hrows hne
      | cons a as => simp
    have hl : (jsParseInt limit == some 0) = false := beq_eq_false_iff_ne.mpr hlim
    simp [getRows, hempty, hl, filterOpt, hf]
  · intro hsc
    rcases hsc with hsc | hsc
    · simp [getRows, hsc]
    · simp [getRows, hsc]

theorem c2_meta_counts_witness :
    getRows { rows := [[("a", Value.num 1)], [("a", Value.num 2)]] }
        (Value.num 1) Value.undef (some (.list [])) none true =
      Except.ok (.meta
        (applyProcessing { rows := [[("a", Value.num 1)], [("a", Value.num 2)]] }
          (jsSlice (sortIfGiven [[("a", Value.num 1)], [("a", Value.num 2)]] none)
            (pageStart Value.undef) (pageEnd (Value.num 1) Value.undef)))
        ([[("a", Value.num 1)], [("a", Value.num 2)]] : List Row).length
        (applyProcessing { rows := [[("a", Value.num 1)], [("a", Value.num 2)]] }
          (jsSlice (sortIfGiven [[("a", Value.num 1)], [("a", Value.num 2)]] none)
            (pageStart Value.undef) (pageEnd (Value.num 1) Value.undef))).length
        (jsParseInt (Value.num 1)) (pageStart Value.undef)) ∧
    getRows { rows := [[("a", Value.num 1)], [("a", Value.num 2)]] }
        (Value.num 0) Value.undef (some (.list [])) none true =
      Except.ok (.meta [] 0 0 (jsParseInt (Value.num 0)) (pageStart Value.undef)) :=
  ⟨(c2_meta_counts { rows := [[("a", Value.num 1)], [("a", Value.num 2)]] }
      (Value.num 1) Value.undef (.list []) none
      [[("a", Value.num 1)], [("a", Value.num 2)]]).1
      (by decide) (by decide) (by decide),
   (c2_meta_counts { rows := [[("a", Value.num 1)], [("a", Value.num 2)]] }
      (Value.num 0) Value.undef (.list []) none []).2 (Or.inr (by decide))⟩

/-- C2 counterexample to the claim as stated: with `limit = 0` and a
condition matched by one row, the envelope reports `totalCount = 0`,
not the number of rows satisfying the conditions. -/
theorem c2_limit_zero_counterexample :
    getRows { rows := [[("a", Value.str "x")]] } (Value.num 0) Value.undef
        (some (.list [.obj [("a", CVal.v (Value.str "x"))]])) none true =
      Except.ok (.meta [] 0 0 (some 0) (some 0)) ∧
    filteredList [[("a", Value.str "x")]] (.list [.obj [("a", CVal.v (Value.str "x"))]]) =
      Except.ok [[("a", Value.str "x")]] := by
  decide

/-- C3 (amended): parsed `limit === 0` yields an empty page regardless of
table size; a falsy `offset` is treated as 0; a falsy (absent) `limit` returns
everything from the clamped offset onward; but a truthy unparsable `offset`
combined with a truthy limit, or a truthy unparsable `limit`, poisons the
slice bound (`offset + NaN` is NaN, clamped to 0) and yields an empty page;
an offset at or beyond the filtered row count yields an empty page, not an
error. -/
theorem c3_pagination_policy (t : Table) (limit offset : Value) (conds : Option CondArg)
    (sorts : Option (List String)) (fr : List Row) :
    (jsParseInt limit = some 0 →
      getRows t limit offset conds sorts false = Except.ok (.plain [])) ∧
    (truthy offset = false → pageStart offset = some 0) ∧
    (t.rows ≠ [] → jsParseInt limit ≠ some 0 → truthy limit = false →
      filterOpt t.rows conds = Except.ok fr → 0 ≤ (pageStart offset).getD 0 →
      getRows t limit offset conds sorts false =
        Except.ok (.plain ((sortIfGiven fr sorts).drop ((pageStart offset).getD 0).toNat))) ∧
    (t.rows ≠ [] → jsParseInt limit ≠ some 0 → truthy limit = true → truthy offset = true →
      jsParseInt offset = none → filterOpt t.rows conds = Except.ok fr →
      getRows t limit offset conds sorts false = Except.ok (.plain [])) ∧
    (t.rows ≠ [] → truthy limit = true → jsParseInt limit = none →
      filterOpt t.rows conds = Except.ok fr →
      getRows t limit offset conds sorts false = Except.ok (.plain [])) ∧
    (t.rows ≠ [] → jsParseInt limit ≠ some 0 → filterOpt t.rows conds = Except.ok fr →
      ∀ o : Int, pageStart offset = some o → (fr.length : Int) ≤ o →
      getRows t limit offset conds sorts false = Except.ok (.plain [])) := by
  have hlen : ∀ ss, (sortIfGiven fr ss).length = fr.length := by
    intro ss
    cases ss with
    | none => rfl
    | some ss' => simp [sortIfGiven, sortedList]
  refine ⟨?_, ?_, ?_, ?_, ?_, ?_⟩
  · intro h
    simp [getRows, h]
  · intro h
    simp [pageStart, h]
  · intro hne hlim hfalsy hf hpos
    have hempty : t.rows.isEmpty = false := by
      cases hrows : t.rows with
      | nil => exact absurd hrows hne
      | cons a as => simp
    have hl : (jsParseInt limit == some 0) = false := beq_eq_false_iff_ne.mpr hlim
    have hend : pageEnd limit offset = none := by simp [pageEnd, hfalsy]
    simp [getRows, hempty, hl, hf, hend, jsSlice_none_eq_drop hpos]
  · intro hne hlim htl hto hoff hf
    have hempty : t.rows.isEmpty = false := by
      cases hrows : t.rows with
      | nil => exact absurd hrows hne
      | cons a as => simp
    have hl : (jsParseInt limit == some 0) = false := beq_eq_false_iff_ne.mpr hlim
    have hstart : pageStart offset = none := by simp [pageStart, hto, hoff]
    have hend : pageEnd limit offset = some none := by simp [pageEnd, htl, hstart]
    simp [getRows, hempty, hl, hf, hend, jsSlice_nan_end]
  · intro hne htl hlim hf
    have hempty : t.rows.isEmpty = false := by
      cases hrows : t.rows with
      | nil => exact absurd hrows hne
      | cons a as => simp
    have hl : (jsParseInt limit == some 0) = false := by simp [hlim]
    have hend : pageEnd limit offset = some none := by
      simp only [pageEnd, htl, if_true, hlim]
      cases pageStart offset <;> rfl
    simp [getRows, hempty, hl, hf, hend, jsSlice_nan_end]
  · intro hne hlim hf o hso hbeyond
    have hempty : t.rows.isEmpty = false := by
      cases hrows : t.rows with
      | nil => exact absurd hrows hne
      | cons a as => simp
    have hl : (jsParseInt limit == some 0) = false := beq_eq_false_iff_ne.mpr hlim
    have hslice : jsSlice (sortIfGiven fr sorts) (pageStart offset) (pageEnd limit offset) = [] := by
      rw [hso]
      exact jsSlice_start_beyond _ (by rw [hlen]; exact hbeyond)
    simp [getRows, hempty, hl, hf, hslice]

theorem c3_pagination_policy_witness :
    getRows { rows := [[("a", Value.num 1)]] } (Value.num 0) Value.undef none none false =
      Except.ok (.plain []) ∧
    pageStart Value.undef = some 0 ∧
    getRows { rows := [[("a", Value.num 1)], [("a", Value.num 2)]] }
        Value.undef (Value.num 1) none none false =
      Except.ok (.plain [[("a", Value.num 2)]]) ∧
    getRows { rows := [[("a", Value.num 1)]] } (Value.num 5) (Value.str "xyz") none none false =
      Except.ok (.plain []) ∧
    getRows { rows := [[("a", Value.num 1)]] } (Value.str "abc") Value.undef none none false =
      Except.ok (.plain []) ∧
    getRows { rows := [[("a", Value.num 1)]] } (Value.num 5) (Value.num 3) none none false =
      Except.ok (.plain []) := by
  refine ⟨?_, ?_, ?_, ?_, ?_, ?_⟩
  · exact (c3_pagination_policy { rows := [[("a", Value.num 1)]] } (Value.num 0) Value.undef
      none none []).1 (by decide)
  · exact (c3_pagination_policy { rows := [] } Value.undef Value.undef none none []).2.1
      (by decide)
  · have h := (c3_pagination_policy { rows := [[("a", Value.num 1)], [("a", Value.num 2)]] }
      Value.undef (Value.num 1) none none [[("a", Value.num 1)], [("a", Value.num 2)]]).2.2.1
      (by decide) (by decide) (by decide) (by decide) (by decide)
    simpa using h
  · exact (c3_pagination_policy { rows := [[("a", Value.num 1)]] } (Value.num 5)
      (Value.str "xyz") none none [[("a", Value.num 1)]]).2.2.2.1
      (by decide) (by decide) (by decide) (by decide) (by decide) (by decide)
  · exact (c3_pagination_policy { rows := [[("a", Value.num 1)]] } (Value.str "abc")
      Value.undef none none [[("a", Value.num 1)]]).2.2.2.2.1
      (by decide) (by decide) (by decide) (by decide)
  · exact (c3_pagination_policy { rows := [[("a", Value.num 1)]] } (Value.num 5)
      (Value.num 3) none none [[("a", Value.num 1)]]).2.2.2.2.2
      (by decide) (by decide) (by decide) 3 (by decide) (by decide)

/-- C3 counterexample to the claim as stated: `"abc"` is an unparsable limit,
yet `getRows` returns an empty page instead of every row from the offset
(because `slice`'s end bound becomes `0 + NaN`, clamped to 0). -/
theorem c3_unparsable_limit_counterexample :
    getRows { rows := [[("a", Value.num 1)]] } (Value.str "abc") Value.undef none none false =
      Except.ok (.plain []) ∧
    getRows { rows := [[("a", Value.num 1)]] } (Value.str "abc") Value.undef none none false ≠
      Except.ok (.plain [[("a", Value.num 1)]]) := by
  decide

end MockTable
